import Mathlib

/-!
Verification of the compression-tool recommender pipeline (`inference.py`).

Shallow embedding conventions:
* The bytes of a file are a `List Byte` (`Byte := Fin 256`).
* Paths are `String`s; `os.path.splitext` is modelled with POSIX semantics
  (separator `/`), and `.lower()` with ASCII lowering, matching the inputs
  the program handles.
* External effects (whether `shutil.which` finds an executable, how the
  spawned tool behaves, what the optional media libraries return, wall-clock
  durations) are passed in explicitly as environment values; `try`/`except`
  blocks become `Option`/`Except` plus explicit outcome cases.
* Python `float` arithmetic on sizes and ratios is modelled exactly over `ℚ`;
  the Shannon entropy (which uses `math.log2`) is modelled over `ℝ` with
  `Real.logb 2`.
-/

namespace Minerva

/-- A byte value, as stored in a Python `bytes` object. -/
abbrev Byte := Fin 256

/-! ### Path helpers (`os.path.splitext`, `.lower()`, `.strip(".")`) -/

/-- Index of the last occurrence of `c` in `cs`, `-1` if absent
(Python `str.rfind`). -/
def rfindChar (cs : List Char) (c : Char) : Int :=
  (List.range cs.length).foldl
    (fun acc i => if cs.getD i (Char.ofNat 0) = c then (i : Int) else acc) (-1)

/-- The extension component of `os.path.splitext(p)` (POSIX): the suffix from
the last dot, provided that dot lies after the last `/` and some non-dot
character sits between them (a leading-dots-only basename has no extension). -/
def splitextExt (p : String) : String :=
  let cs := p.data
  let sepIndex := rfindChar cs '/'
  let dotIndex := rfindChar cs '.'
  if sepIndex < dotIndex then
    if (List.range cs.length).any (fun i =>
        decide (sepIndex < (i : Int)) && decide ((i : Int) < dotIndex) &&
        decide (cs.getD i (Char.ofNat 0) ≠ '.')) then
      ⟨cs.drop dotIndex.toNat⟩
    else ""
  else ""

/-- Python `str.lower()` (ASCII range, which covers the inputs the program handles). -/
def lowerStr (s : String) : String := ⟨s.data.map Char.toLower⟩

/-- Python `str.upper()` (ASCII range). -/
def upperStr (s : String) : String := ⟨s.data.map Char.toUpper⟩

/-- Python `s.strip(".")`: remove leading and trailing dots. -/
def stripDots (s : String) : String :=
  ⟨((s.data.dropWhile (· == '.')).reverse.dropWhile (· == '.')).reverse⟩

/-- Model of `os.path.splitext(p)[1].lower()` — the extension *with* its dot,
lowercased (used by `get_prediction`). -/
def lowerExt (p : String) : String := lowerStr (splitextExt p)

/-- Model of `os.path.splitext(p)[1].lower().strip(".")` — the extension with the dot
stripped (used by `compile_feature_vector` and `run_full_benchmark`). -/
def extNoDot (p : String) : String := stripDots (lowerExt p)

/-! ### Feature extraction -/

/-- Count of byte `b` in the contents of the file (the `Counter` entry for `b`). -/
def byteCount (content : List Byte) (b : Byte) : Nat := content.count b

/-- The Shannon entropy `-Σ (c/size)·log2(c/size)` summed over the
`counts.values()` of the observed bytes only (`Counter` stores no
zero-count keys). -/
noncomputable def shannonEntropy (content : List Byte) : ℝ :=
  -(Finset.sum (Finset.filter (fun b => 0 < byteCount content b) Finset.univ)
    (fun b => ((byteCount content b : ℝ) / content.length) *
      Real.logb 2 ((byteCount content b : ℝ) / content.length)))

/-- Model of `get_universal_features(file_path)`: `(file_size, entropy, byte_dist)`.
`readResult` is `none` when `os.path.getsize` or the read raises (the
`except:` branch); otherwise it carries the bytes of the file. The returned
distribution is the dict `{i: counts.get(i, 0) / file_size}`. -/
noncomputable def get_universal_features (readResult : Option (List Byte)) :
    Nat × ℝ × (Byte → ℚ) :=
  match readResult with
  | none => (0, 0, fun _ => 0)
  | some content =>
    let file_size := content.length
    if file_size = 0 then (0, 0, fun _ => 0)
    else
      (file_size, shannonEntropy content,
       fun i => (byteCount content i : ℚ) / file_size)

/-- Model of `get_image_features`: `imgRead` is `some (w, h, bands)` when
`PIL.Image.open` succeeds, `none` when it raises. -/
def get_image_features (imgRead : Option (Nat × Nat × Nat)) :
    Nat × Nat × Nat × Nat :=
  match imgRead with
  | some (w, h, bands) => (w, h, bands, 8)
  | none => (0, 0, 0, 0)

/-- Model of `get_audio_features`: `avail` is `PYDUB_AVAILABLE`; `audioRead` is
`some (lenMs, frameRate, channels, sampleWidth)` when
`AudioSegment.from_wav` succeeds, `none` when it raises. -/
def get_audio_features (avail : Bool) (audioRead : Option (ℚ × Nat × Nat × Nat)) :
    ℚ × Nat × Nat × Nat :=
  if avail = false then (0, 0, 0, 0)
  else
    match audioRead with
    | some (lenMs, frameRate, channels, sampleWidth) =>
      (lenMs / 1000, frameRate, channels, sampleWidth * 8)
    | none => (0, 0, 0, 0)

/-- Python `str.strip()` — strip whitespace from both ends. -/
def stripWs (s : String) : String :=
  ⟨((s.data.dropWhile Char.isWhitespace).reverse.dropWhile Char.isWhitespace).reverse⟩

/-- Model of `get_text_features`: `textRead` is `some lines` (the `readlines()`
result, decoded with `errors="ignore"`) on success, `none` when opening
raises. Returns the mean stripped line length, `0` for an empty file. -/
def get_text_features (textRead : Option (List String)) : ℚ :=
  match textRead with
  | none => 0
  | some lines =>
    if lines.isEmpty then 0
    else ((lines.map (fun l => ((stripWs l).length : ℚ))).sum) / lines.length

/-- Model of `get_pdf_features`: `avail` is `PYMUPDF_AVAILABLE`; `pdfRead` is
`some page_count` when `fitz.open` succeeds, `none` when it raises. -/
def get_pdf_features (avail : Bool) (pdfRead : Option Nat) : Nat :=
  if avail = false then 0
  else
    match pdfRead with
    | some pageCount => pageCount
    | none => 0

/-- External environment for one `compile_feature_vector` call: what the
file system and the optional media libraries would yield. -/
structure ExtractEnv where
  /-- Bytes of the file, `none` if reading raises. -/
  readResult : Option (List Byte)
  /-- Result of `PIL.Image.open`. -/
  imgRead : Option (Nat × Nat × Nat)
  /-- Flag `PYDUB_AVAILABLE`. -/
  audioAvail : Bool
  /-- Result of `AudioSegment.from_wav`. -/
  audioRead : Option (ℚ × Nat × Nat × Nat)
  /-- Result of `readlines()`. -/
  textRead : Option (List String)
  /-- Flag `PYMUPDF_AVAILABLE`. -/
  pdfAvail : Bool
  /-- Page count read by `fitz`. -/
  pdfRead : Option Nat

/-- The insights dict (numeric values kept unformatted). -/
structure Insights where
  /-- Entry `"File Type"`: uppercased extension. -/
  fileType : String
  /-- Entry `"File Size (KB)"`: `fs / 1024`. -/
  fileSizeKB : ℚ
  /-- Entry `"Shannon Entropy"`. -/
  entropy : ℝ
  /-- Entry `"Duration (s)"`, present iff `ds > 0`. -/
  duration : Option ℚ
  /-- Entry `"Dimensions"`, present iff `w > 0`. -/
  dimensions : Option (Nat × Nat)
  /-- Entry `"Page Count"`, present iff `pc > 0`. -/
  pageCount : Option Nat

/-- Model of `compile_feature_vector(file_path)`: the 268-entry raw feature vector
(12 scalar statistics followed by the 256 byte frequencies) and the
insights dict. -/
noncomputable def compile_feature_vector (file_path : String) (env : ExtractEnv) :
    List ℝ × Insights :=
  let ext := extNoDot file_path
  let ufs := get_universal_features env.readResult
  let fs := ufs.1
  let ent := ufs.2.1
  let bd := ufs.2.2
  let al : ℚ := if ext = "txt" ∨ ext = "csv" ∨ ext = "json" then
    get_text_features env.textRead else 0
  let pc : Nat := if ext = "pdf" then get_pdf_features env.pdfAvail env.pdfRead else 0
  let img : Nat × Nat × Nat × Nat :=
    if ext = "jpg" ∨ ext = "jpeg" ∨ ext = "png" then
      get_image_features env.imgRead else (0, 0, 0, 0)
  let aud : ℚ × Nat × Nat × Nat :=
    if ext = "wav" then get_audio_features env.audioAvail env.audioRead
    else (0, 0, 0, 0)
  let stat_features : List ℝ :=
    [fs, ent, (al : ℝ), pc, img.1, img.2.1, img.2.2.1, img.2.2.2,
     (aud.1 : ℝ), aud.2.1, aud.2.2.1, aud.2.2.2]
  let byte_features : List ℝ := (List.finRange 256).map (fun i => ((bd i : ℚ) : ℝ))
  (stat_features ++ byte_features,
   { fileType := upperStr ext
     fileSizeKB := (fs : ℚ) / 1024
     entropy := ent
     duration := if 0 < aud.1 then some aud.1 else none
     dimensions := if 0 < img.1 then some (img.1, img.2.1) else none
     pageCount := if 0 < pc then some pc else none })

/-! ### `get_prediction` -/

/-- The errors `get_prediction` can raise before model inference. -/
inductive PredError
  /-- Raised by `os.path.getsize` (e.g. the file does not exist). -/
  | osError
  /-- One of the two `ValueError`s raised by validation. -/
  | invalidInput (msg : String)
  deriving DecidableEq

/-- Which pipeline stages ran. -/
structure PredState where
  /-- Whether `compile_feature_vector` was reached. -/
  extracted : Bool
  /-- scaling / model prediction was reached. -/
  inferred : Bool
  deriving DecidableEq

/-- The extension allow-list of `get_prediction`. -/
def allowed_extensions : List String :=
  [".txt", ".csv", ".json", ".pdf", ".png", ".jpg", ".jpeg", ".wav"]

/-- Model of `get_prediction(file_path, model_name)` up to the model forward pass
(the pretrained network itself is an external artifact): `fsize` models
`os.path.getsize` (`none` = raises `OSError`). On success the compiled raw
feature vector is returned, witnessing that extraction and inference run
only after both validations pass. -/
noncomputable def get_prediction (fsize : String → Option Nat) (file_path : String)
    (env : ExtractEnv) : Except PredError (List ℝ) × PredState :=
  match fsize file_path with
  | none => (.error .osError, ⟨false, false⟩)
  | some original_size =>
    let ext := lowerExt file_path
    if ext ∉ allowed_extensions then
      (.error (.invalidInput ("Invalid file type " ++ ext ++ ".")), ⟨false, false⟩)
    else if 50 * 1024 * 1024 < original_size then
      (.error (.invalidInput "File is too large for this demo (max 50 MB)."),
       ⟨false, false⟩)
    else
      (.ok (compile_feature_vector file_path env).1, ⟨true, true⟩)

/-! ### `run_single_compression` -/

/-- Dict `COMPRESSOR_PATHS`: tool name → executable name. -/
def COMPRESSOR_PATHS : List (String × String) :=
  [("7zip", "7z"), ("zip", "zip"), ("winrar", "rar"),
   ("gzip", "gzip"), ("bzip2", "bzip2"), ("flac", "flac")]

/-- List `all_tools` as enumerated by `run_full_benchmark`. -/
def all_tools : List String := ["7zip", "zip", "winrar", "gzip", "bzip2", "flac"]

/-- Outcome of the `try:` block of `run_single_compression` once the
executable has been located, as determined by the external world. -/
inductive ExecOutcome
  /-- An exception before the subprocess is spawned
  (e.g. `shutil.copyfile` of the input fails). -/
  | preFail
  /-- The subprocess raised (non-zero exit via `check=True`, 60 s timeout),
  or the output file is missing so `os.path.getsize(output_path)` raised. -/
  | runFail
  /-- The size of the output file was read as `comp` bytes; `copyOk` tells whether
  the final `shutil.copyfile` to the download location then succeeded. -/
  | sized (comp : Nat) (copyOk : Bool)
  deriving DecidableEq, Repr

/-- External environment for one `run_single_compression` call. -/
structure SingleEnv where
  /-- Whether `shutil.which` locates the executable of the tool. -/
  whichFound : Bool
  /-- How the `try:` block plays out when entered. -/
  outcome : ExecOutcome
  /-- Value of `time.time() - start_time` at the measuring return points. -/
  elapsed : ℚ
  deriving DecidableEq, Repr

/-- Return value of `run_single_compression`, instrumented with which
control-flow points were reached. -/
structure RunResult where
  /-- Compression ratio. -/
  ratio : ℚ
  /-- Elapsed seconds. -/
  elapsed : ℚ
  /-- Path of the copied-out compressed file, when produced. -/
  outPath : Option String
  /-- Whether `shutil.which` was consulted. -/
  whichCalled : Bool
  /-- Whether the external executable was actually spawned. -/
  invoked : Bool
  deriving DecidableEq, Repr

/-- Model of `run_single_compression(tool, file_path)` with the size of the file and the
external world made explicit. A tool outside `COMPRESSOR_PATHS` makes
`COMPRESSOR_PATHS.get(tool)` return `None`, and `shutil.which(None)` raises a
`TypeError` outside any `try:` — modelled by `.error`. Every other path
returns normally. -/
def run_single_compression (tool : String) (origSize : Nat) (env : SingleEnv) :
    Except String RunResult :=
  if origSize = 0 then
    .ok ⟨1, 0, none, false, false⟩
  else
    match List.lookup tool COMPRESSOR_PATHS with
    | none => .error "TypeError: shutil.which(None)"
    | some _ =>
      if env.whichFound = false then
        .ok ⟨1, 0, none, true, false⟩
      else
        match env.outcome with
        | .preFail => .ok ⟨1, env.elapsed, none, true, false⟩
        | .runFail => .ok ⟨1, env.elapsed, none, true, true⟩
        | .sized comp copyOk =>
          let ratio : ℚ := if 0 < comp then (origSize : ℚ) / comp else 1
          if copyOk then
            .ok ⟨ratio, env.elapsed, some ("compressed_output." ++ tool), true, true⟩
          else
            .ok ⟨1, env.elapsed, none, true, true⟩

/-! ### `run_full_benchmark` loop body -/

/-- One iteration of the `for tool in all_tools:` loop of
`run_full_benchmark`: the `(ratio, size)` pair recorded for `tool`.
Note the source computes `ext` with `.strip(".")` and then compares it
against the dotted string `".wav"`. -/
def benchmark_step (tool : String) (file_path : String) (origSize : Nat)
    (env : SingleEnv) : Except String (ℚ × ℚ) :=
  let ext := extNoDot file_path
  if tool = "flac" ∧ ext ≠ ".wav" then
    .ok (0, (origSize : ℚ))
  else
    (run_single_compression tool origSize env).map fun r =>
      (r.ratio, if 0 < r.ratio then (origSize : ℚ) / r.ratio else (origSize : ℚ))

/-- Numeric results of `run_full_benchmark`: the per-tool `(ratio, size)`
pairs, in tool order (chart and summary rendering not modelled). -/
def run_full_benchmark (file_path : String) (origSize : Nat)
    (envs : String → SingleEnv) : Except String (List (String × ℚ × ℚ)) :=
  all_tools.mapM fun tool =>
    (benchmark_step tool file_path origSize (envs tool)).map fun pr => (tool, pr)

/-! ### Shared lemmas -/

/-- After dropping leading dots, the head of a character list is not a dot. -/
theorem head?_dropWhileDot (l : List Char) :
    (l.dropWhile (· == '.')).head? ≠ some '.' := by
  induction l with
  | nil => simp
  | cons a l ih =>
    rw [List.dropWhile_cons]
    by_cases h : a = '.'
    · simpa [h] using ih
    · simp [h]

/-- The result of `strip(".")` never starts with a dot. -/
theorem stripDots_head_ne_dot (s : String) :
    (stripDots s).data.head? ≠ some '.' := by
  show ((((s.data.dropWhile (· == '.')).reverse.dropWhile (· == '.')).reverse).head? ≠
    some '.')
  set d := s.data.dropWhile (· == '.') with hd
  have hsplit : d = (List.dropWhile (· == '.') d.reverse).reverse ++
      (List.takeWhile (· == '.') d.reverse).reverse := by
    conv_lhs => rw [← List.reverse_reverse d,
      ← List.takeWhile_append_dropWhile (· == '.') d.reverse]
    rw [List.reverse_append]
  intro hc
  have hhead : d.head? = some '.' := by
    rw [hsplit, List.head?_append, hc]; rfl
  exact head?_dropWhileDot s.data hhead

/-- The result of `strip(".")` is never the dotted string `".wav"`. -/
theorem stripDots_ne_dotwav (s : String) : stripDots s ≠ ".wav" := by
  intro h
  have : (stripDots s).data.head? = some '.' := by rw [h]; rfl
  exact stripDots_head_ne_dot s this

/-!
### C1 — flac skipping in `run_full_benchmark`

The loop body computes `ext = splitext(file_path)[1].lower().strip(".")`,
so `ext` never begins with a dot, yet it is compared against the dotted
string `".wav"`. The test `ext != ".wav"` is therefore always true and the
flac tool is skipped for *every* input, `.wav` files included — contradicting
the claimed equivalence (and the spec sentence it quotes). The intent is
clear from `compile_feature_vector`, which strips the dot and then compares
against the undotted `"wav"`.
-/

/-- C1 (code bug): in the benchmark loop the flac tool is *always* skipped —
its ratio recorded as `0.0` and its size as the original size, with
`run_single_compression` never called (the result does not depend on the
tool environment) — even for a `.wav` input such as `"sound.wav"`, because
the dot-stripped extension is compared against the dotted string `".wav"`. -/
theorem c1_flac_always_skipped :
    (∀ (file_path : String) (origSize : Nat) (env : SingleEnv),
      benchmark_step "flac" file_path origSize env = .ok (0, (origSize : ℚ))) ∧
    benchmark_step "flac" "sound.wav" 100 ⟨true, .sized 50 true, 1⟩ =
      .ok (0, 100) := by
  have hmain : ∀ (file_path : String) (origSize : Nat) (env : SingleEnv),
      benchmark_step "flac" file_path origSize env = .ok (0, (origSize : ℚ)) := by
    intro file_path origSize env
    have hext : extNoDot file_path ≠ ".wav" := stripDots_ne_dotwav _
    unfold benchmark_step
    rw [if_pos ⟨rfl, hext⟩]
  exact ⟨hmain, hmain "sound.wav" 100 _⟩

/-!
### C9 — zero-byte short circuit in `run_single_compression`
-/

/-- C9: for every tool (known or not) and every environment, a zero-byte
input makes `run_single_compression` return ratio `1.0`, elapsed `0.0` and
no output path, without consulting `shutil.which` or spawning any
executable. -/
theorem c9_zero_byte_short_circuit (tool : String) (env : SingleEnv) :
    run_single_compression tool 0 env =
      .ok ⟨1, 0, none, false, false⟩ := by
  unfold run_single_compression
  rw [if_pos rfl]

/-!
### C5 — `run_single_compression` degrades failures, never raises
-/

/-- Every tool of the fixed six-tool set has an entry in
`COMPRESSOR_PATHS`. -/
theorem lookup_of_mem_all_tools (tool : String) (h : tool ∈ all_tools) :
    ∃ cmd, List.lookup tool COMPRESSOR_PATHS = some cmd := by
  fin_cases h <;> exact ⟨_, rfl⟩

/-- C5: for every tool of the fixed six-tool set, `run_single_compression`
returns normally (never raises); when the executable is absent from the
search path the result is ratio `1.0`, elapsed `0.0`, no output path; and
every failure during execution (exception before the subprocess, non-zero
exit or timeout or missing output file, or a failing final copy) yields
ratio `1.0` with no output path — so no single tool failure can abort a
`run_full_benchmark` sweep. -/
theorem c5_never_raises (tool : String) (htool : tool ∈ all_tools)
    (origSize : Nat) (env : SingleEnv) :
    (∃ r, run_single_compression tool origSize env = Except.ok r) ∧
    (env.whichFound = false →
      ∀ r, run_single_compression tool origSize env = Except.ok r →
        r.ratio = 1 ∧ r.elapsed = 0 ∧ r.outPath = none) ∧
    ((env.outcome = ExecOutcome.preFail ∨ env.outcome = ExecOutcome.runFail ∨
        (∃ c, env.outcome = ExecOutcome.sized c false)) →
      ∀ r, run_single_compression tool origSize env = Except.ok r →
        r.ratio = 1 ∧ r.outPath = none) := by
  obtain ⟨cmd, hcmd⟩ := lookup_of_mem_all_tools tool htool
  obtain ⟨wf, oc, e⟩ := env
  by_cases h0 : origSize = 0
  · have hrun : run_single_compression tool origSize ⟨wf, oc, e⟩ =
        Except.ok ⟨1, 0, none, false, false⟩ := by
      simp [run_single_compression, h0]
    refine ⟨⟨_, hrun⟩, ?_, ?_⟩
    · intro _ r hr
      rw [hrun] at hr
      obtain rfl := Except.ok.inj hr
      exact ⟨rfl, rfl, rfl⟩
    · intro _ r hr
      rw [hrun] at hr
      obtain rfl := Except.ok.inj hr
      exact ⟨rfl, rfl⟩
  · cases wf with
    | false =>
      have hrun : run_single_compression tool origSize ⟨false, oc, e⟩ =
          Except.ok ⟨1, 0, none, true, false⟩ := by
        simp [run_single_compression, h0, hcmd]
      refine ⟨⟨_, hrun⟩, ?_, ?_⟩
      · intro _ r hr
        rw [hrun] at hr
        obtain rfl := Except.ok.inj hr
        exact ⟨rfl, rfl, rfl⟩
      · intro _ r hr
        rw [hrun] at hr
        obtain rfl := Except.ok.inj hr
        exact ⟨rfl, rfl⟩
    | true =>
      cases oc with
      | preFail =>
        have hrun : run_single_compression tool origSize ⟨true, .preFail, e⟩ =
            Except.ok ⟨1, e, none, true, false⟩ := by
          simp [run_single_compression, h0, hcmd]
        refine ⟨⟨_, hrun⟩, ?_, ?_⟩
        · intro hw; exact absurd hw (by simp)
        · intro _ r hr
          rw [hrun] at hr
          obtain rfl := Except.ok.inj hr
          exact ⟨rfl, rfl⟩
      | runFail =>
        have hrun : run_single_compression tool origSize ⟨true, .runFail, e⟩ =
            Except.ok ⟨1, e, none, true, true⟩ := by
          simp [run_single_compression, h0, hcmd]
        refine ⟨⟨_, hrun⟩, ?_, ?_⟩
        · intro hw; exact absurd hw (by simp)
        · intro _ r hr
          rw [hrun] at hr
          obtain rfl := Except.ok.inj hr
          exact ⟨rfl, rfl⟩
      | sized comp copyOk =>
        cases copyOk with
        | false =>
          have hrun : run_single_compression tool origSize
              ⟨true, .sized comp false, e⟩ =
              Except.ok ⟨1, e, none, true, true⟩ := by
            simp [run_single_compression, h0, hcmd]
          refine ⟨⟨_, hrun⟩, ?_, ?_⟩
          · intro hw; exact absurd hw (by simp)
          · intro _ r hr
            rw [hrun] at hr
            obtain rfl := Except.ok.inj hr
            exact ⟨rfl, rfl⟩
        | true =>
          have hrun : run_single_compression tool origSize
              ⟨true, .sized comp true, e⟩ =
              Except.ok ⟨if 0 < comp then (origSize : ℚ) / comp else 1, e,
                some ("compressed_output." ++ tool), true, true⟩ := by
            simp [run_single_compression, h0, hcmd]
          refine ⟨⟨_, hrun⟩, ?_, ?_⟩
          · intro hw; exact absurd hw (by simp)
          · rintro (h | h | ⟨c, h⟩) <;> simp at h

/-- Witness for C5 at a concrete input: the gzip tool, a 7-byte file, an
absent executable. -/
theorem c5_never_raises_witness :
    "gzip" ∈ all_tools ∧
    run_single_compression "gzip" 7 ⟨false, ExecOutcome.preFail, 5⟩ =
      Except.ok ⟨1, 0, none, true, false⟩ ∧
    (1 : ℚ) = 1 ∧ (0 : ℚ) = 0 ∧ (none : Option String) = none := by
  have h := (c5_never_raises "gzip" (by decide) 7
    ⟨false, ExecOutcome.preFail, 5⟩).2.1 rfl ⟨1, 0, none, true, false⟩ rfl
  exact ⟨by decide, rfl, h⟩

/-!
### C3 — ratio computation in `run_single_compression`

The source computes `ratio = original_size / comp_size if comp_size > 0
else 1.0` and never clamps it, so a tool whose output is *larger* than the
input yields a ratio strictly below 1 — the "in all cases the returned
ratio is greater than or equal to 1" part of the claim fails.
-/

/-- C3 counterexample: a 10-byte input whose compressed output is 20 bytes
gives ratio `1/2 < 1`, refuting the claim that the returned ratio is always
at least 1. -/
theorem c3_ratio_counterexample :
    run_single_compression "zip" 10 ⟨true, ExecOutcome.sized 20 true, 1⟩ =
      Except.ok ⟨1/2, 1, some "compressed_output.zip", true, true⟩ ∧
    ¬(1 ≤ (1/2 : ℚ)) := by
  constructor
  · have hlk : List.lookup "zip" COMPRESSOR_PATHS = some "zip" := by decide
    simp [run_single_compression, hlk]
    norm_num
  · norm_num

/-- C3 (amended): for every tool of the six-tool set and every non-empty
input, the returned ratio equals `original_size / compressed_size` when the
tool produced an output of positive size, is exactly `1.0` on failure or
when the compressed size is `0`, and is at least 1 *whenever the compressed
output is no larger than the original*; an output larger than the original
yields a ratio strictly below 1. -/
theorem c3_ratio_amended (tool : String) (htool : tool ∈ all_tools)
    (origSize comp : Nat) (e : ℚ) (hsz : 0 < origSize) :
    (0 < comp → run_single_compression tool origSize
        ⟨true, ExecOutcome.sized comp true, e⟩ =
      Except.ok ⟨(origSize : ℚ) / comp, e,
        some ("compressed_output." ++ tool), true, true⟩) ∧
    (run_single_compression tool origSize ⟨true, ExecOutcome.sized 0 true, e⟩ =
      Except.ok ⟨1, e, some ("compressed_output." ++ tool), true, true⟩) ∧
    (run_single_compression tool origSize ⟨true, ExecOutcome.runFail, e⟩ =
      Except.ok ⟨1, e, none, true, true⟩) ∧
    (0 < comp → comp ≤ origSize → 1 ≤ (origSize : ℚ) / comp) ∧
    (origSize < comp → (origSize : ℚ) / comp < 1) := by
  obtain ⟨cmd, hcmd⟩ := lookup_of_mem_all_tools tool htool
  have h0 : ¬ origSize = 0 := Nat.pos_iff_ne_zero.mp hsz
  refine ⟨?_, ?_, ?_, ?_, ?_⟩
  · intro hc
    simp [run_single_compression, h0, hcmd, hc]
  · simp [run_single_compression, h0, hcmd]
  · simp [run_single_compression, h0, hcmd]
  · intro hc hle
    rw [one_le_div (by exact_mod_cast hc)]
    exact_mod_cast hle
  · intro hlt
    rw [div_lt_one (by exact_mod_cast hsz.trans hlt)]
    exact_mod_cast hlt

/-- Witness for C3 at a concrete input: the zip tool, a 4-byte file
compressed to 2 bytes. -/
theorem c3_ratio_amended_witness :
    "zip" ∈ all_tools ∧ 0 < 4 ∧
    run_single_compression "zip" 4 ⟨true, ExecOutcome.sized 2 true, 3⟩ =
      Except.ok ⟨(4 : ℚ) / 2, 3, some "compressed_output.zip", true, true⟩ ∧
    1 ≤ ((4 : ℚ) / 2) := by
  have h := c3_ratio_amended "zip" (by decide) 4 2 3 (by decide)
  exact ⟨by decide, by decide, by exact_mod_cast h.1 (by decide),
    by exact_mod_cast h.2.2.2.1 (by decide) (by decide)⟩

/-!
### C2 and C10 — validation in `get_prediction`
-/

/-- C10: for a path whose size lookup fails (the file does not exist),
`get_prediction` propagates the file-system error — not an InvalidInput
`ValueError` — whatever the extension of the path, and neither feature
extraction nor model inference runs: `os.path.getsize` precedes both
validations. -/
theorem c10_missing_file_raises_os_error (fsize : String → Option Nat)
    (file_path : String) (env : ExtractEnv) (h : fsize file_path = none) :
    get_prediction fsize file_path env =
      (Except.error PredError.osError, ⟨false, false⟩) := by
  unfold get_prediction
  rw [h]

/-- Witness for C10: a missing file named with a disallowed extension still
produces the file-system error, not the validation error. -/
theorem c10_missing_file_raises_os_error_witness :
    (fun _ : String => (none : Option Nat)) "ghost.exe" = none ∧
    get_prediction (fun _ => none) "ghost.exe"
        ⟨none, none, false, none, none, false, none⟩ =
      (Except.error PredError.osError, ⟨false, false⟩) :=
  ⟨rfl, c10_missing_file_raises_os_error (fun _ => none) "ghost.exe"
    ⟨none, none, false, none, none, false, none⟩ rfl⟩

/-- C2: for every existing file, `get_prediction` raises InvalidInput when
the lowercased extension is outside the allow-list; raises InvalidInput when
the extension is allowed but the size strictly exceeds `50 * 1024 * 1024 =
52428800` bytes; and otherwise (allowed extension, size at most `52428800`,
the boundary included) passes both validations and proceeds to feature
extraction and model inference. In the two error cases neither extraction
nor inference runs. -/
theorem c2_validation (fsize : String → Option Nat) (file_path : String)
    (env : ExtractEnv) (sz : Nat) (hsz : fsize file_path = some sz) :
    (lowerExt file_path ∉ allowed_extensions →
      get_prediction fsize file_path env =
        (Except.error (PredError.invalidInput
          ("Invalid file type " ++ lowerExt file_path ++ ".")), ⟨false, false⟩)) ∧
    (lowerExt file_path ∈ allowed_extensions → 52428800 < sz →
      get_prediction fsize file_path env =
        (Except.error (PredError.invalidInput
          "File is too large for this demo (max 50 MB)."), ⟨false, false⟩)) ∧
    (lowerExt file_path ∈ allowed_extensions → sz ≤ 52428800 →
      get_prediction fsize file_path env =
        (Except.ok (compile_feature_vector file_path env).1, ⟨true, true⟩)) := by
  refine ⟨?_, ?_, ?_⟩
  · intro hext
    simp only [get_prediction, hsz]
    rw [if_pos hext]
  · intro hext hbig
    simp only [get_prediction, hsz]
    rw [if_neg (not_not_intro hext), if_pos (by omega : 50 * 1024 * 1024 < sz)]
  · intro hext hsmall
    simp only [get_prediction, hsz]
    rw [if_neg (not_not_intro hext), if_neg (by omega : ¬ 50 * 1024 * 1024 < sz)]

/-- Witness for C2 at concrete inputs: `x.TXT` (case-insensitive allowed
extension) of exactly 52428800 bytes is accepted; `y.txt` of 52428801 bytes
and `z.exe` of 10 bytes are rejected with InvalidInput. -/
theorem c2_validation_witness :
    get_prediction (fun _ => some 52428800) "x.TXT"
        ⟨none, none, false, none, none, false, none⟩ =
      (Except.ok (compile_feature_vector "x.TXT"
        ⟨none, none, false, none, none, false, none⟩).1, ⟨true, true⟩) ∧
    get_prediction (fun _ => some 52428801) "y.txt"
        ⟨none, none, false, none, none, false, none⟩ =
      (Except.error (PredError.invalidInput
        "File is too large for this demo (max 50 MB)."), ⟨false, false⟩) ∧
    get_prediction (fun _ => some 10) "z.exe"
        ⟨none, none, false, none, none, false, none⟩ =
      (Except.error (PredError.invalidInput
        ("Invalid file type " ++ lowerExt "z.exe" ++ ".")), ⟨false, false⟩) := by
  refine ⟨?_, ?_, ?_⟩
  · exact (c2_validation (fun _ => some 52428800) "x.TXT" _ 52428800 rfl).2.2
      (by decide) (by decide)
  · exact (c2_validation (fun _ => some 52428801) "y.txt" _ 52428801 rfl).2.1
      (by decide) (by decide)
  · exact (c2_validation (fun _ => some 10) "z.exe" _ 10 rfl).1 (by decide)

/-!
### C8 — extraction failures degrade to zeros
-/

/-- Unfolded form of the raw feature vector: the 12 scalar statistics in
source order followed by the 256 byte frequencies. -/
theorem compile_feature_vector_fst (file_path : String) (env : ExtractEnv) :
    (compile_feature_vector file_path env).1 =
      [((get_universal_features env.readResult).1 : ℝ),
       (get_universal_features env.readResult).2.1,
       ((if extNoDot file_path = "txt" ∨ extNoDot file_path = "csv" ∨
            extNoDot file_path = "json"
          then get_text_features env.textRead else 0 : ℚ) : ℝ),
       ((if extNoDot file_path = "pdf"
          then get_pdf_features env.pdfAvail env.pdfRead else 0 : Nat) : ℝ),
       (((if extNoDot file_path = "jpg" ∨ extNoDot file_path = "jpeg" ∨
            extNoDot file_path = "png"
          then get_image_features env.imgRead else (0, 0, 0, 0)).1 : ℝ)),
       (((if extNoDot file_path = "jpg" ∨ extNoDot file_path = "jpeg" ∨
            extNoDot file_path = "png"
          then get_image_features env.imgRead else (0, 0, 0, 0)).2.1 : ℝ)),
       (((if extNoDot file_path = "jpg" ∨ extNoDot file_path = "jpeg" ∨
            extNoDot file_path = "png"
          then get_image_features env.imgRead else (0, 0, 0, 0)).2.2.1 : ℝ)),
       (((if extNoDot file_path = "jpg" ∨ extNoDot file_path = "jpeg" ∨
            extNoDot file_path = "png"
          then get_image_features env.imgRead else (0, 0, 0, 0)).2.2.2 : ℝ)),
       (((if extNoDot file_path = "wav"
          then get_audio_features env.audioAvail env.audioRead
          else (0, 0, 0, 0)).1 : ℝ)),
       (((if extNoDot file_path = "wav"
          then get_audio_features env.audioAvail env.audioRead
          else (0, 0, 0, 0)).2.1 : ℝ)),
       (((if extNoDot file_path = "wav"
          then get_audio_features env.audioAvail env.audioRead
          else (0, 0, 0, 0)).2.2.1 : ℝ)),
       (((if extNoDot file_path = "wav"
          then get_audio_features env.audioAvail env.audioRead
          else (0, 0, 0, 0)).2.2.2 : ℝ))] ++
      (List.finRange 256).map (fun i =>
        (((get_universal_features env.readResult).2.2 i : ℚ) : ℝ)) := rfl

/-- The raw feature vector always has exactly 268 entries. -/
theorem compile_feature_vector_length (file_path : String) (env : ExtractEnv) :
    (compile_feature_vector file_path env).1.length = 268 := by
  rw [compile_feature_vector_fst]
  simp

/-- C8: no extraction failure propagates — a failed universal read yields
`(0, 0.0, all-zero histogram)`, each type-specific extractor yields all-zero
values when its optional capability is unavailable or its read/parse fails,
and `compile_feature_vector` still returns a full 268-entry vector (plus
insights) for every environment, including all-failing ones. -/
theorem c8_extraction_never_fails (file_path : String) (env : ExtractEnv)
    (avail : Bool) (aR : Option (ℚ × Nat × Nat × Nat)) (pR : Option Nat) :
    get_universal_features none = (0, 0, fun _ => 0) ∧
    get_image_features none = (0, 0, 0, 0) ∧
    get_audio_features false aR = (0, 0, 0, 0) ∧
    get_audio_features avail none = (0, 0, 0, 0) ∧
    get_text_features none = 0 ∧
    get_pdf_features false pR = 0 ∧
    get_pdf_features avail none = 0 ∧
    (compile_feature_vector file_path env).1.length = 268 :=
  ⟨rfl, rfl, rfl, by cases avail <;> rfl, rfl, rfl, by cases avail <;> rfl,
   compile_feature_vector_length file_path env⟩

/-!
### C6 — the byte histogram is a probability distribution
-/

/-- Summing the per-byte counts over all 256 byte values gives the length
of the file. -/
theorem sum_byteCount (l : List Byte) :
    Finset.sum Finset.univ (fun b => byteCount l b) = l.length := by
  induction l with
  | nil => simp [byteCount]
  | cons a l ih =>
    have hc : (fun b : Byte => byteCount (a :: l) b) =
        fun b => byteCount l b + if a = b then 1 else 0 := by
      funext b
      simp [byteCount, List.count_cons]
    rw [hc, Finset.sum_add_distrib, ih, Finset.sum_ite_eq]
    simp

/-- C6: for every non-empty readable file the 256 histogram values (each the
count of that byte divided by the file size) sum to exactly 1; for an empty
file every histogram value is 0. -/
theorem c6_histogram_sums_to_one (content : List Byte) (h : content ≠ []) :
    Finset.sum Finset.univ
      (fun b => (get_universal_features (some content)).2.2 b) = 1 ∧
    (∀ b : Byte, (get_universal_features (some content)).2.2 b =
      (byteCount content b : ℚ) / content.length) ∧
    (∀ b : Byte, (get_universal_features (some [])).2.2 b = 0) := by
  have hlen : content.length ≠ 0 := by simpa using h
  have hdist : (get_universal_features (some content)).2.2 =
      fun b => (byteCount content b : ℚ) / content.length := by
    simp only [get_universal_features]
    rw [if_neg hlen]
  refine ⟨?_, fun b => by rw [hdist], fun b => rfl⟩
  rw [hdist, ← Finset.sum_div]
  have hsum : Finset.sum Finset.univ (fun b => (byteCount content b : ℚ)) =
      (content.length : ℚ) := by
    rw [← Nat.cast_sum, sum_byteCount]
  rw [hsum]
  exact div_self (by exact_mod_cast hlen)

/-- Witness for C6: the one-byte file `[0]` has histogram summing to 1. -/
theorem c6_histogram_sums_to_one_witness :
    ([(0 : Byte)] ≠ ([] : List Byte)) ∧
    Finset.sum Finset.univ
      (fun b => (get_universal_features (some [(0 : Byte)])).2.2 b) = 1 :=
  ⟨by decide, (c6_histogram_sums_to_one [(0 : Byte)] (by decide)).1⟩

/-!
### C7 — Shannon entropy
-/

/-- C7: the entropy is `0.0` for an empty file and `0.0` for every file
whose bytes all equal a single value; and for every non-empty file the
entropy — defined over the observed byte values only — coincides with
`-Σ p_i·log2(p_i)` taken over *all* 256 byte values, because zero-count
bytes contribute nothing. -/
theorem c7_entropy (b : Byte) (n : Nat) (hn : 0 < n)
    (content : List Byte) (hc : content ≠ []) :
    (get_universal_features (some ([] : List Byte))).2.1 = 0 ∧
    (get_universal_features (some (List.replicate n b))).2.1 = 0 ∧
    (get_universal_features (some content)).2.1 =
      -(Finset.sum Finset.univ (fun x =>
        ((byteCount content x : ℝ) / content.length) *
          Real.logb 2 ((byteCount content x : ℝ) / content.length))) := by
  refine ⟨rfl, ?_, ?_⟩
  · have hlen : (List.replicate n b).length = n := List.length_replicate n b
    have hlenne : (List.replicate n b).length ≠ 0 := by rw [hlen]; omega
    have hcount : ∀ x : Byte, byteCount (List.replicate n b) x =
        if b = x then n else 0 := by
      intro x
      simp [byteCount, List.count_replicate]
    have hfilter : Finset.filter
        (fun x => 0 < byteCount (List.replicate n b) x) Finset.univ = {b} := by
      ext x
      simp only [Finset.mem_filter, Finset.mem_univ, true_and,
        Finset.mem_singleton, hcount x]
      by_cases hbx : b = x
      · subst hbx
        simp [hn]
      · simp [if_neg hbx, Ne.symm hbx]
    have hent : shannonEntropy (List.replicate n b) = 0 := by
      unfold shannonEntropy
      rw [hfilter, Finset.sum_singleton, hcount b, if_pos rfl, hlen]
      have hone : ((n : ℝ)) / n = 1 := div_self (by exact_mod_cast hn.ne')
      rw [hone, Real.logb_one, mul_zero, neg_zero]
    simp only [get_universal_features]
    rw [if_neg hlenne]
    exact hent
  · have hlenne : content.length ≠ 0 := by simpa using hc
    simp only [get_universal_features]
    rw [if_neg hlenne]
    unfold shannonEntropy
    rw [neg_inj]
    refine Finset.sum_filter_of_ne ?_
    intro x _ hne
    by_contra hno
    have h0 : byteCount content x = 0 := by omega
    apply hne
    rw [h0]
    simp

/-- Witness for C7: the file `[0]` (one repeated byte) has entropy 0. -/
theorem c7_entropy_witness :
    0 < 1 ∧ ([(0 : Byte)] ≠ ([] : List Byte)) ∧
    (get_universal_features (some (List.replicate 1 (0 : Byte)))).2.1 = 0 :=
  ⟨Nat.one_pos, by decide,
   (c7_entropy 0 1 Nat.one_pos [(0 : Byte)] (by decide)).2.1⟩

/-!
### C4 — feature vector layout
-/

/-- Entry `12 + i` of the assembled vector is the byte frequency of `i`. -/
theorem getD_stats_append_byte (stats : List ℝ) (h : stats.length = 12)
    (f : Byte → ℝ) (i : Byte) :
    (stats ++ (List.finRange 256).map f).getD (12 + (i : Nat)) 0 = f i := by
  rw [List.getD_append_right _ _ _ _ (by omega)]
  rw [h]
  have h12 : 12 + (i : Nat) - 12 = (i : Nat) := by omega
  rw [h12]
  have hn : (i : Nat) < ((List.finRange 256).map f).length := by
    rw [List.length_map, List.length_finRange]
    exact i.isLt
  rw [List.getD_eq_getElem _ _ hn, List.getElem_map, List.getElem_finRange]
  congr 1

/-- C4: for every file and environment the feature vector has length
exactly 268; slot 0 is the file size and slot 1 the entropy; slot 2 (mean
line length), slot 3 (pdf pages), slots 4-7 (image width, height, channels,
bit depth) and slots 8-11 (audio duration, sample rate, channels, bit
depth) carry the respective extractor values exactly when the extension of
the file belongs to the matching class and are 0 otherwise; slots 12..267
are the 256 byte-frequency values indexed 0..255. -/
theorem c4_vector_layout (file_path : String) (env : ExtractEnv) :
    (compile_feature_vector file_path env).1.length = 268 ∧
    (compile_feature_vector file_path env).1.getD 0 0 =
      ((get_universal_features env.readResult).1 : ℝ) ∧
    (compile_feature_vector file_path env).1.getD 1 0 =
      (get_universal_features env.readResult).2.1 ∧
    (∀ i : Byte, (compile_feature_vector file_path env).1.getD (12 + (i : Nat)) 0 =
      (((get_universal_features env.readResult).2.2 i : ℚ) : ℝ)) ∧
    ((extNoDot file_path = "txt" ∨ extNoDot file_path = "csv" ∨
        extNoDot file_path = "json") →
      (compile_feature_vector file_path env).1.getD 2 0 =
        ((get_text_features env.textRead : ℚ) : ℝ)) ∧
    (¬(extNoDot file_path = "txt" ∨ extNoDot file_path = "csv" ∨
        extNoDot file_path = "json") →
      (compile_feature_vector file_path env).1.getD 2 0 = 0) ∧
    (extNoDot file_path = "pdf" →
      (compile_feature_vector file_path env).1.getD 3 0 =
        (get_pdf_features env.pdfAvail env.pdfRead : ℝ)) ∧
    (extNoDot file_path ≠ "pdf" →
      (compile_feature_vector file_path env).1.getD 3 0 = 0) ∧
    ((extNoDot file_path = "jpg" ∨ extNoDot file_path = "jpeg" ∨
        extNoDot file_path = "png") →
      ((compile_feature_vector file_path env).1.getD 4 0 =
          ((get_image_features env.imgRead).1 : ℝ) ∧
       (compile_feature_vector file_path env).1.getD 5 0 =
          ((get_image_features env.imgRead).2.1 : ℝ) ∧
       (compile_feature_vector file_path env).1.getD 6 0 =
          ((get_image_features env.imgRead).2.2.1 : ℝ) ∧
       (compile_feature_vector file_path env).1.getD 7 0 =
          ((get_image_features env.imgRead).2.2.2 : ℝ))) ∧
    (¬(extNoDot file_path = "jpg" ∨ extNoDot file_path = "jpeg" ∨
        extNoDot file_path = "png") →
      ((compile_feature_vector file_path env).1.getD 4 0 = 0 ∧
       (compile_feature_vector file_path env).1.getD 5 0 = 0 ∧
       (compile_feature_vector file_path env).1.getD 6 0 = 0 ∧
       (compile_feature_vector file_path env).1.getD 7 0 = 0)) ∧
    (extNoDot file_path = "wav" →
      ((compile_feature_vector file_path env).1.getD 8 0 =
          ((get_audio_features env.audioAvail env.audioRead).1 : ℝ) ∧
       (compile_feature_vector file_path env).1.getD 9 0 =
          ((get_audio_features env.audioAvail env.audioRead).2.1 : ℝ) ∧
       (compile_feature_vector file_path env).1.getD 10 0 =
          ((get_audio_features env.audioAvail env.audioRead).2.2.1 : ℝ) ∧
       (compile_feature_vector file_path env).1.getD 11 0 =
          ((get_audio_features env.audioAvail env.audioRead).2.2.2 : ℝ))) ∧
    (extNoDot file_path ≠ "wav" →
      ((compile_feature_vector file_path env).1.getD 8 0 = 0 ∧
       (compile_feature_vector file_path env).1.getD 9 0 = 0 ∧
       (compile_feature_vector file_path env).1.getD 10 0 = 0 ∧
       (compile_feature_vector file_path env).1.getD 11 0 = 0)) := by
  refine ⟨compile_feature_vector_length file_path env, ?_, ?_, ?_, ?_, ?_, ?_,
    ?_, ?_, ?_, ?_, ?_⟩
  · rw [compile_feature_vector_fst, List.getD_append _ _ _ 0 (by simp)]
    rfl
  · rw [compile_feature_vector_fst, List.getD_append _ _ _ 1 (by simp)]
    rfl
  · intro i
    rw [compile_feature_vector_fst]
    exact getD_stats_append_byte _ (by simp) _ i
  · intro hx
    rw [compile_feature_vector_fst, List.getD_append _ _ _ 2 (by simp), if_pos hx]
    rfl
  · intro hx
    rw [compile_feature_vector_fst, List.getD_append _ _ _ 2 (by simp), if_neg hx]
    simp
  · intro hx
    rw [compile_feature_vector_fst, List.getD_append _ _ _ 3 (by simp), if_pos hx]
    rfl
  · intro hx
    rw [compile_feature_vector_fst, List.getD_append _ _ _ 3 (by simp), if_neg hx]
    simp
  · intro hx
    refine ⟨?_, ?_, ?_, ?_⟩
    · rw [compile_feature_vector_fst, List.getD_append _ _ _ 4 (by simp), if_pos hx]
      rfl
    · rw [compile_feature_vector_fst, List.getD_append _ _ _ 5 (by simp), if_pos hx]
      rfl
    · rw [compile_feature_vector_fst, List.getD_append _ _ _ 6 (by simp), if_pos hx]
      rfl
    · rw [compile_feature_vector_fst, List.getD_append _ _ _ 7 (by simp), if_pos hx]
      rfl
  · intro hx
    refine ⟨?_, ?_, ?_, ?_⟩
    · rw [compile_feature_vector_fst, List.getD_append _ _ _ 4 (by simp), if_neg hx]
      simp
    · rw [compile_feature_vector_fst, List.getD_append _ _ _ 5 (by simp), if_neg hx]
      simp
    · rw [compile_feature_vector_fst, List.getD_append _ _ _ 6 (by simp), if_neg hx]
      simp
    · rw [compile_feature_vector_fst, List.getD_append _ _ _ 7 (by simp), if_neg hx]
      simp
  · intro hx
    refine ⟨?_, ?_, ?_, ?_⟩
    · rw [compile_feature_vector_fst, List.getD_append _ _ _ 8 (by simp), if_pos hx]
      rfl
    · rw [compile_feature_vector_fst, List.getD_append _ _ _ 9 (by simp), if_pos hx]
      rfl
    · rw [compile_feature_vector_fst, List.getD_append _ _ _ 10 (by simp), if_pos hx]
      rfl
    · rw [compile_feature_vector_fst, List.getD_append _ _ _ 11 (by simp), if_pos hx]
      rfl
  · intro hx
    refine ⟨?_, ?_, ?_, ?_⟩
    · rw [compile_feature_vector_fst, List.getD_append _ _ _ 8 (by simp), if_neg hx]
      simp
    · rw [compile_feature_vector_fst, List.getD_append _ _ _ 9 (by simp), if_neg hx]
      simp
    · rw [compile_feature_vector_fst, List.getD_append _ _ _ 10 (by simp), if_neg hx]
      simp
    · rw [compile_feature_vector_fst, List.getD_append _ _ _ 11 (by simp), if_neg hx]
      simp

/-- Witness for C4: a `.txt` file in an all-failing environment has a
268-entry vector whose pdf and audio slots are 0. -/
theorem c4_vector_layout_witness :
    (compile_feature_vector "a.txt"
      ⟨none, none, false, none, none, false, none⟩).1.length = 268 ∧
    (compile_feature_vector "a.txt"
      ⟨none, none, false, none, none, false, none⟩).1.getD 3 0 = 0 ∧
    (compile_feature_vector "a.txt"
      ⟨none, none, false, none, none, false, none⟩).1.getD 8 0 = 0 := by
  obtain ⟨h1, h2, h3, h4, h5, h6, h7, h8, h9, h10, h11, h12⟩ :=
    c4_vector_layout "a.txt" ⟨none, none, false, none, none, false, none⟩
  exact ⟨h1, h8 (by decide), (h12 (by decide)).1⟩

end Minerva
